import Mathlib

/-
Verification of the single-document synchronization service (Go sources:
store/store.go, server/server.go, server/view.go).

Time model. Go's time.Time is modelled as an Int counting seconds since
0001-01-01 00:00:00 UTC (the zero value of time.Time), so `time.Time{}`
is 0 and `t.After(u)` is `u < t`.  All versions handled by the protocol
are whole seconds, because they travel through the RFC1123 wire format;
only time.Now carries sub-second precision, which we model by passing
nanoseconds and truncating where store.go formats the stamp.

Zone simplification: the server runs with a UTC local clock and Go gives a
fabricated zero-offset zone to every unknown abbreviation it parses, so all
times compare as UTC here and rfc1123Format always prints the "UTC"
abbreviation (Go would reprint the abbreviation that was parsed; no claim
depends on the reprinted abbreviation).
-/

namespace Todo

/-- Days since 0001-01-01 of a proleptic-Gregorian civil date
(year, month 1..12, day; a day larger than the month is normalized
forward exactly as Go's time.Date does). -/
def daysFromCivil (y : Int) (m : Nat) (d : Nat) : Int :=
  let y2 : Int := if m ≤ 2 then y - 1 else y
  let era : Int := Int.fdiv y2 400
  let yoe : Int := y2 - era * 400
  let mp : Int := if m ≤ 2 then (m : Int) + 9 else (m : Int) - 3
  let doy : Int := Int.fdiv (153 * mp + 2) 5 + (d : Int) - 1
  let doe : Int := yoe * 365 + Int.fdiv yoe 4 - Int.fdiv yoe 100 + doy
  era * 146097 + doe - 306

/-- Civil date (year, month, day) of a count of days since 0001-01-01. -/
def civilFromDays (days : Int) : Int × Nat × Nat :=
  let z := days + 306
  let era := Int.fdiv z 146097
  let doe := z - era * 146097
  let yoe := Int.fdiv (doe - Int.fdiv doe 1460 + Int.fdiv doe 36524 - Int.fdiv doe 146096) 365
  let y := yoe + era * 400
  let doy := doe - (365 * yoe + Int.fdiv yoe 4 - Int.fdiv yoe 100)
  let mp := Int.fdiv (5 * doy + 2) 153
  let d := doy - Int.fdiv (153 * mp + 2) 5 + 1
  let m := if mp < 10 then mp + 3 else mp - 9
  ((if m ≤ 2 then y + 1 else y), m.toNat, d.toNat)

def pad2 (n : Nat) : String :=
  if n < 10 then "0" ++ toString n else toString n

/-- Zero-padded four digit year, as Go's Format emits for the "2006" verb
(negative years cannot reach rfc1123Format through this development). -/
def pad4 (y : Int) : String :=
  let n := y.toNat
  if n < 10 then "000" ++ toString n
  else if n < 100 then "00" ++ toString n
  else if n < 1000 then "0" ++ toString n
  else toString n

def shortDayNames : List String :=
  ["Sun", "Mon", "Tue", "Wed", "Thu", "Fri", "Sat"]

def longDayNames : List String :=
  ["Sunday", "Monday", "Tuesday", "Wednesday", "Thursday", "Friday", "Saturday"]

def shortMonthNames : List String :=
  ["Jan", "Feb", "Mar", "Apr", "May", "Jun", "Jul", "Aug", "Sep", "Oct", "Nov", "Dec"]

def longMonthNames : List String :=
  ["January", "February", "March", "April", "May", "June", "July", "August",
   "September", "October", "November", "December"]

/-- RFC1123 serialization of a time, as produced by
`version.Format(time.RFC1123)` in store.go line 225 for a UTC time.
Day 0 (0001-01-01) is a Monday, so weekday = days mod 7 with 0 ↦ Mon. -/
def rfc1123Format (t : Int) : String :=
  let days := Int.fdiv t 86400
  let rem := (Int.fmod t 86400).toNat
  let ymd := civilFromDays days
  let wd := (Int.fmod days 7).toNat
  (["Mon", "Tue", "Wed", "Thu", "Fri", "Sat", "Sun"].getD wd "") ++ ", " ++
    pad2 ymd.2.2 ++ " " ++ (shortMonthNames.getD (ymd.2.1 - 1) "") ++ " " ++
    pad4 ymd.1 ++ " " ++ pad2 (rem / 3600) ++ ":" ++ pad2 (rem % 3600 / 60) ++ ":" ++
    pad2 (rem % 60) ++ " UTC"

/-! Model of Go's time.Parse (layout-driven parser from the Go standard
library time/format.go, at the Go release the repository pins: no day-of-month
range check, no "002" day-of-year verb, no "+hh" zone abbreviations).
Numeric-offset layout verbs ("-0700", "Z0700") and fractional-second layout
verbs are omitted: no layout containing them is ever parsed in this
development, since the only layouts reaching the parser are RFC1123 itself
and the stored metadata strings appearing in concrete theorems.  Sub-second
digits appearing in a value after the seconds are consumed and dropped
(all zones are zero-offset here, see the header note). -/

def isDigitChar (c : Char) : Bool := '0' ≤ c ∧ c ≤ '9'

def digitVal (c : Char) : Nat := c.toNat - '0'.toNat

/-- Go's getnum: one digit, or two digits; exactly two when fixed. -/
def getnum (fixed : Bool) : List Char → Option (Nat × List Char)
  | [] => none
  | c1 :: rest =>
    if isDigitChar c1 then
      match rest with
      | c2 :: rest2 =>
        if isDigitChar c2 then some (10 * digitVal c1 + digitVal c2, rest2)
        else if fixed then none else some (digitVal c1, rest)
      | [] => if fixed then none else some (digitVal c1, [])
    else none

/-- Byte comparison with ASCII case folding, as Go's `match`. -/
def charMatch (a b : Char) : Bool :=
  a = b ∨
    (let a2 := a.toNat ||| 32
     let b2 := b.toNat ||| 32
     a2 = b2 ∧ 97 ≤ a2 ∧ a2 ≤ 122)

/-- Match `name` as a case-folded prefix of `v`, returning the rest of `v`. -/
def stripNameCI : List Char → List Char → Option (List Char)
  | [], v => some v
  | _ :: _, [] => none
  | a :: as_, b :: bs => if charMatch b a then stripNameCI as_ bs else none

/-- Go's lookup over a name table: first name matching as a prefix wins. -/
def lookupName (tab : List String) (v : List Char) : Option (Nat × List Char) :=
  go tab 0
where
  go : List String → Nat → Option (Nat × List Char)
    | [], _ => none
    | n :: ns, i =>
      match stripNameCI n.data v with
      | some rest => some (i, rest)
      | none => go ns (i + 1)

def cutspace : List Char → List Char
  | ' ' :: rest => cutspace rest
  | l => l

/-- Go's skip: match a literal layout fragment against the value; a space in
the literal matches a (possibly empty) run of spaces. -/
def skipLit : Nat → List Char → List Char → Option (List Char)
  | 0, _, _ => none
  | _ + 1, [], v => some v
  | fuel + 1, ' ' :: ps, v =>
    match v with
    | ' ' :: _ => skipLit fuel (cutspace ps) (cutspace v)
    | [] => skipLit fuel (cutspace ps) (cutspace v)
    | _ => none
  | fuel + 1, p :: ps, v =>
    match v with
    | c :: vs => if c = p then skipLit fuel ps vs else none
    | [] => none

/-- The layout verbs of Go's reference time recognized by nextStdChunk. -/
inductive Std
  | longMonth | month | numMonth | zeroMonth
  | longWeekDay | weekDay
  | day | underDay | zeroDay
  | hour | hour12 | zeroHour12
  | minute | zeroMinute
  | second | zeroSecond
  | longYear | year2
  | pmUpper | pmLower
  | tz
deriving DecidableEq, Repr

/-- Go's nextStdChunk: split a layout into a literal, the next verb, and the
remaining layout (`none` verb when the layout has no verb left). -/
def nextChunkAux : List Char → List Char → List Char × Option Std × List Char
  | acc, [] => (acc.reverse, none, [])
  | acc, 'J' :: 'a' :: 'n' :: 'u' :: 'a' :: 'r' :: 'y' :: rest =>
    (acc.reverse, some .longMonth, rest)
  | acc, 'J' :: 'a' :: 'n' :: rest => (acc.reverse, some .month, rest)
  | acc, 'M' :: 'o' :: 'n' :: 'd' :: 'a' :: 'y' :: rest =>
    (acc.reverse, some .longWeekDay, rest)
  | acc, 'M' :: 'o' :: 'n' :: rest => (acc.reverse, some .weekDay, rest)
  | acc, 'M' :: 'S' :: 'T' :: rest => (acc.reverse, some .tz, rest)
  | acc, '0' :: '1' :: rest => (acc.reverse, some .zeroMonth, rest)
  | acc, '0' :: '2' :: rest => (acc.reverse, some .zeroDay, rest)
  | acc, '0' :: '3' :: rest => (acc.reverse, some .zeroHour12, rest)
  | acc, '0' :: '4' :: rest => (acc.reverse, some .zeroMinute, rest)
  | acc, '0' :: '5' :: rest => (acc.reverse, some .zeroSecond, rest)
  | acc, '0' :: '6' :: rest => (acc.reverse, some .year2, rest)
  | acc, '1' :: '5' :: rest => (acc.reverse, some .hour, rest)
  | acc, '1' :: rest => (acc.reverse, some .numMonth, rest)
  | acc, '2' :: '0' :: '0' :: '6' :: rest => (acc.reverse, some .longYear, rest)
  | acc, '2' :: rest => (acc.reverse, some .day, rest)
  | acc, '_' :: '2' :: '0' :: '0' :: '6' :: rest => (('_' :: acc).reverse, some .longYear, rest)
  | acc, '_' :: '2' :: rest => (acc.reverse, some .underDay, rest)
  | acc, '3' :: rest => (acc.reverse, some .hour12, rest)
  | acc, '4' :: rest => (acc.reverse, some .minute, rest)
  | acc, '5' :: rest => (acc.reverse, some .second, rest)
  | acc, 'P' :: 'M' :: rest => (acc.reverse, some .pmUpper, rest)
  | acc, 'p' :: 'm' :: rest => (acc.reverse, some .pmLower, rest)
  | acc, c :: rest => nextChunkAux (c :: acc) rest

def isUpperChar (c : Char) : Bool := 'A' ≤ c ∧ c ≤ 'Z'

/-- Count of leading upper-case letters, saturated at 6 as in parseTimeZone. -/
def countUpper : List Char → Nat → Nat
  | _, 0 => 6
  | [], _ => 0
  | c :: rest, fuel + 1 => if isUpperChar c then countUpper rest fuel + 1 else 0

def dropDigits : List Char → List Char
  | c :: rest => if isDigitChar c then dropDigits rest else c :: rest
  | [] => []

def takeDigitsVal : List Char → Nat → Nat
  | c :: rest, acc => if isDigitChar c then takeDigitsVal rest (acc * 10 + digitVal c) else acc
  | [], acc => acc

/-- Go's parseGMT: "GMT" possibly followed by a signed whole-hour offset. -/
def parseGMTLen (v : List Char) : Nat :=
  let rest := v.drop 3
  match rest with
  | [] => 3
  | s :: rest2 =>
    if s ≠ '-' ∧ s ≠ '+' then 3
    else match rest2 with
      | [] => 3
      | c :: _ =>
        if ¬ isDigitChar c then 3
        else
          let digits := rest2.length - (dropDigits rest2).length
          let x : Int := if s = '-' then -(takeDigitsVal rest2 0 : Int) else (takeDigitsVal rest2 0 : Int)
          if x = 0 ∨ x < -14 ∨ 12 < x then 3 else 3 + 1 + digits

/-- Go's parseTimeZone: how many characters of `v` form a zone abbreviation. -/
def parseTZLen (v : List Char) : Option Nat :=
  if v.length < 3 then none
  else if v.take 4 = "ChST".data ∨ v.take 4 = "MeST".data then some 4
  else if v.take 3 = "GMT".data then some (parseGMTLen v)
  else
    match countUpper v 6 with
    | 3 => some 3
    | 4 => if v.getD 3 ' ' = 'T' ∨ v.take 4 = "WITA".data then some 4 else none
    | 5 => if v.getD 4 ' ' = 'T' then some 5 else none
    | _ => none

/-- The fields time.Parse accumulates, with Go's defaults. -/
structure ParseAcc where
  year : Int := 0
  month : Nat := 1
  day : Nat := 1
  hour : Nat := 0
  minute : Nat := 0
  second : Nat := 0
  pmSet : Bool := false
  amSet : Bool := false
deriving Repr, DecidableEq

/-- A fractional second in the value with no fractional verb in the layout is
consumed and dropped (its digits cannot shift whole-second comparisons here). -/
def consumeFrac (v : List Char) : List Char :=
  match v with
  | c1 :: c2 :: _ =>
    if (c1 = '.' ∨ c1 = ',') ∧ isDigitChar c2 then dropDigits (v.drop 1) else v
  | _ => v

def allDigits (l : List Char) : Bool := l.all isDigitChar

/-- Consume one layout verb from the value, per the switch in Go's Parse. -/
def consumeStd : Std → List Char → ParseAcc → Option (ParseAcc × List Char)
  | .longMonth, v, acc =>
    (lookupName longMonthNames v).map fun p => ({ acc with month := p.1 + 1 }, p.2)
  | .month, v, acc =>
    (lookupName shortMonthNames v).map fun p => ({ acc with month := p.1 + 1 }, p.2)
  | .numMonth, v, acc =>
    (getnum false v).bind fun p =>
      if p.1 = 0 ∨ 12 < p.1 then none else some ({ acc with month := p.1 }, p.2)
  | .zeroMonth, v, acc =>
    (getnum true v).bind fun p =>
      if p.1 = 0 ∨ 12 < p.1 then none else some ({ acc with month := p.1 }, p.2)
  | .longWeekDay, v, acc =>
    (lookupName longDayNames v).map fun p => (acc, p.2)
  | .weekDay, v, acc =>
    (lookupName shortDayNames v).map fun p => (acc, p.2)
  | .day, v, acc =>
    (getnum false v).map fun p => ({ acc with day := p.1 }, p.2)
  | .underDay, v, acc =>
    let v2 := match v with
      | ' ' :: rest => rest
      | _ => v
    (getnum false v2).map fun p => ({ acc with day := p.1 }, p.2)
  | .zeroDay, v, acc =>
    (getnum true v).map fun p => ({ acc with day := p.1 }, p.2)
  | .hour, v, acc =>
    (getnum false v).bind fun p =>
      if 24 ≤ p.1 then none else some ({ acc with hour := p.1 }, p.2)
  | .hour12, v, acc =>
    (getnum false v).bind fun p =>
      if 12 < p.1 then none else some ({ acc with hour := p.1 }, p.2)
  | .zeroHour12, v, acc =>
    (getnum true v).bind fun p =>
      if 12 < p.1 then none else some ({ acc with hour := p.1 }, p.2)
  | .minute, v, acc =>
    (getnum false v).bind fun p =>
      if 60 ≤ p.1 then none else some ({ acc with minute := p.1 }, p.2)
  | .zeroMinute, v, acc =>
    (getnum true v).bind fun p =>
      if 60 ≤ p.1 then none else some ({ acc with minute := p.1 }, p.2)
  | .second, v, acc =>
    (getnum false v).bind fun p =>
      if 60 ≤ p.1 then none else some ({ acc with second := p.1 }, consumeFrac p.2)
  | .zeroSecond, v, acc =>
    (getnum true v).bind fun p =>
      if 60 ≤ p.1 then none else some ({ acc with second := p.1 }, consumeFrac p.2)
  | .longYear, v, acc =>
    let four := v.take 4
    if four.length = 4 ∧ allDigits four then
      some ({ acc with year := (takeDigitsVal four 0 : Int) }, v.drop 4)
    else none
  | .year2, v, acc =>
    (getnum true v).map fun p =>
      ({ acc with year := if 69 ≤ p.1 then (1900 + p.1 : Int) else (2000 + p.1 : Int) }, p.2)
  | .pmUpper, v, acc =>
    match v with
    | 'P' :: 'M' :: rest => some ({ acc with pmSet := true, amSet := false }, rest)
    | 'A' :: 'M' :: rest => some ({ acc with amSet := true, pmSet := false }, rest)
    | _ => none
  | .pmLower, v, acc =>
    match v with
    | 'p' :: 'm' :: rest => some ({ acc with pmSet := true, amSet := false }, rest)
    | 'a' :: 'm' :: rest => some ({ acc with amSet := true, pmSet := false }, rest)
    | _ => none
  | .tz, v, acc =>
    match v with
    | 'U' :: 'T' :: 'C' :: rest => some (acc, rest)
    | _ => (parseTZLen v).map fun n => (acc, v.drop n)

/-- Assemble the accumulated fields into seconds since 0001-01-01, applying
the AM/PM adjustment exactly as Go's Parse does. -/
def buildTime (acc : ParseAcc) : Int :=
  let hour :=
    if acc.pmSet ∧ acc.hour < 12 then acc.hour + 12
    else if acc.amSet ∧ acc.hour = 12 then 0
    else acc.hour
  daysFromCivil acc.year acc.month acc.day * 86400 +
    ((hour * 3600 + acc.minute * 60 + acc.second : Nat) : Int)

/-- The main loop of Go's Parse: chunk the layout, match the literal, consume
the verb.  The fuel is the layout length, which strictly bounds the number of
chunks; running out of fuel cannot happen and yields a parse failure. -/
def parseLoop : Nat → List Char → List Char → ParseAcc → Option ParseAcc
  | 0, _, _, _ => none
  | fuel + 1, layout, value, acc =>
    match nextChunkAux [] layout with
    | (lit, none, _) =>
      match skipLit (lit.length + 1) lit value with
      | some [] => some acc
      | _ => none
    | (lit, some code, rest) =>
      match skipLit (lit.length + 1) lit value with
      | none => none
      | some v1 =>
        match consumeStd code v1 acc with
        | none => none
        | some acc2 => parseLoop fuel rest acc2.2 acc2.1

/-- Model of Go's `time.Parse(layout, value)`. -/
def goTimeParse (layout value : String) : Option Int :=
  (parseLoop (layout.length + 1) layout.data value.data {}).map buildTime

/-- The time.RFC1123 layout constant. -/
def rfc1123Layout : String := "Mon, 02 Jan 2006 15:04:05 MST"

/-- Parsing a value in the RFC1123 format, `time.Parse(time.RFC1123, value)`:
the argument order server.go uses for client-supplied version headers. -/
def rfc1123Parse (value : String) : Option Int := goTimeParse rfc1123Layout value

/-! The store (store/store.go).  The S3 world is the single keyed object:
`none` models a NoSuchKey reply from the backend, which the store translates
to ErrNotFound; content is the byte sequence of the object (carried as a
String); `version` is the "version" entry of the object's metadata map,
`none` when the key is absent.  The backend itself is reachable throughout
(transport failures are opaque pass-through errors and appear only in the
boundary-layer error-mapping theorems, via StoreError.transportError). -/

structure S3Object where
  content : String
  version : Option String
deriving DecidableEq, Repr

/-- The error kinds of store/store.go, plus the opaque transport error the
boundary layer can receive from the backend. -/
inductive StoreError
  | notModified
  | versionConflict
  | invalidVersion
  | notFound
  | transportError
deriving DecidableEq, Repr

namespace Store

/-- store.go GetCurrentVersion (lines 85-113): head the object, then parse the
"version" metadata entry.  Note the parse call is `time.Parse(*metadata,
time.RFC1123)` — the stored string is passed as the LAYOUT and the RFC1123
layout constant as the value, exactly as in store.go line 106. -/
def GetCurrentVersion (st : Option S3Object) : Except StoreError Int :=
  match st with
  | none => .error .notFound
  | some obj =>
    match obj.version with
    | none => .error .invalidVersion
    | some metadata =>
      match goTimeParse metadata rfc1123Layout with
      | none => .error .invalidVersion
      | some version => .ok version

/-- store.go Get (lines 116-160): fetch the object, parse the stored version
(same swapped `time.Parse(*metadata, time.RFC1123)` call, line 137), and copy
the content to the writer only when the stored version is strictly newer than
the client's.  The returned pair is (current version, bytes written to the
writer); in every comparison outcome the function returns the current version
with a nil error. -/
def Get (version : Int) (st : Option S3Object) : Except StoreError (Int × String) :=
  match st with
  | none => .error .notFound
  | some obj =>
    match obj.version with
    | none => .error .invalidVersion
    | some metadata =>
      match goTimeParse metadata rfc1123Layout with
      | none => .error .invalidVersion
      | some currentVersion =>
        if version < currentVersion then .ok (currentVersion, obj.content)
        else .ok (currentVersion, "")

/-- store.go write (lines 218-232): PutObject with the content and the
RFC1123 serialization of the version as the "version" metadata entry. -/
def write (version : Int) (content : String) (_ : Option S3Object) : Option S3Object :=
  some { content := content, version := some (rfc1123Format version) }

/-- store.go SafePut (lines 196-211): read the current version, treating only
ErrNotFound as the zero time; any other error propagates.  Write unless the
stored version is strictly newer than the supplied one.  Returns the result
and the S3 state after the call. -/
def SafePut (version : Int) (content : String) (st : Option S3Object) :
    Except StoreError Unit × Option S3Object :=
  let currentVersion : Except StoreError Int :=
    match GetCurrentVersion st with
    | .error e => if e = .notFound then .ok 0 else .error e
    | .ok v => .ok v
  match currentVersion with
  | .error e => (.error e, st)
  | .ok cur =>
    if version < cur then (.error .versionConflict, st)
    else (.ok (), write version content st)

/-- store.go Overwrite (lines 214-216): write with time.Now() as the version;
`nowNs` is the wall clock in nanoseconds since 0001-01-01, truncated to whole
seconds by the RFC1123 serialization in write. -/
def Overwrite (nowNs : Int) (content : String) (st : Option S3Object) :
    Except StoreError Unit × Option S3Object :=
  (.ok (), write (Int.fdiv nowNs 1000000000) content st)

end Store

/-! The boundary layer (server/server.go and server/view.go). -/

namespace Server

/-- server.go SizeLimit (line 16): 1 MiB. -/
def SizeLimit : Int := 1048576

/-- The static HTML view served for GET /index.html (server/view.go). -/
def htmlView : String :=
  "\n<!DOCTYPE html>\n<html>\n    <head>\n        <meta http-equiv=\"Content-Type\" content=\"text/html; charset=utf-8\" />\n        <script type=\"text/javascript\" src=\"https://cdnjs.cloudflare.com/ajax/libs/markdown-it/8.4.0/markdown-it.min.js\"></script>\n        <title>TODO</title>\n    </head>\n    <body>\n        <form action=\"#\" onsubmit=\"return get()\">\n            <input id=\"auth\" type=\"text\" name=\"auth\" value=\"Auth\"/>\n            <input type=\"submit\">\n        </form>\n        <div id=\"view\" style=\"width: 600px; padding: 0 10px\"></div>\n        <script type=\"text/javascript\">\n        function get()\x7b\n            var input = document.getElementById(\"auth\");\n            var view = document.getElementById(\"view\");\n\t\t\tvar xmlhttp = new XMLHttpRequest();\n\t\t\tvar token = input.value\n            xmlhttp.onreadystatechange = function()\x7b\n                if (xmlhttp.readyState == 4 && xmlhttp.status == 200)\x7b\n                    view.innerHTML = (window.markdownit()).render(xmlhttp.responseText);\n                    document.getElementsByTagName(\"form\")[0].style.visibility = \"hidden\";\n                \x7d else \x7b\n                    input.value = \"Error requesting file\";\n                \x7d\n            \x7d\n            xmlhttp.open(\"GET\", \"/\", true);\n            xmlhttp.setRequestHeader(\"Token\", token);\n\t\t\txmlhttp.send();\n\t\t\treturn false\n        \x7d\n      </script>\n    </body>\n</html>\n"

/-- An HTTP response as far as the claims observe it: the status code, the
body bytes written, and the Last-Modified header when the handler sets one. -/
structure HttpResp where
  status : Nat
  body : String
  lastModified : Option String
deriving DecidableEq, Repr

/-- An inbound request: the fields of *http.Request that the handler reads.
Header.Get returns "" for an absent header, so "" models a missing header;
contentLength is Go's req.ContentLength. -/
structure Request where
  method : String
  path : String
  token : String
  ifModifiedSince : String
  lastModified : String
  force : String
  contentLength : Int
  body : String
deriving Repr

/-- server.go get (lines 126-166), for a store whose Get outcome at each
client version is `storeGet`.  The Bool records whether store.Get was
invoked.  An absent If-Modified-Since header skips parsing and leaves the
version at the zero time. -/
def get (path date : String) (storeGet : Int → Except StoreError (Int × String)) :
    HttpResp × Bool :=
  if path = "" ∨ path = "/" then
    match (if date = "" then some 0 else rfc1123Parse date) with
    | none => (⟨400, "", none⟩, false)
    | some version =>
      match storeGet version with
      | .error .notModified => (⟨304, "", none⟩, true)
      | .error .versionConflict => (⟨409, "", none⟩, true)
      | .error _ => (⟨500, "", none⟩, true)
      | .ok r => (⟨200, r.2, some (rfc1123Format r.1)⟩, true)
  else (⟨404, "", none⟩, false)

/-- server.go head (lines 107-123): every store error maps to 500.  The Bool
records whether store.GetCurrentVersion was invoked. -/
def head (path : String) (storeHead : Except StoreError Int) : HttpResp × Bool :=
  if path ≠ "" ∧ path ≠ "/" then (⟨404, "", none⟩, false)
  else
    match storeHead with
    | .error _ => (⟨500, "", none⟩, true)
    | .ok version => (⟨200, "", some (rfc1123Format version)⟩, true)

/-- server.go put (lines 177-232): path check, then the Last-Modified header
must parse, then the content-length checks, then SafePut — or Overwrite when
the Force header is set to anything but "" or "false".  Returns the response
and the S3 state after the call. -/
def put (req : Request) (nowNs : Int) (st : Option S3Object) :
    HttpResp × Option S3Object :=
  if req.path ≠ "" ∧ req.path ≠ "/" then (⟨404, "", none⟩, st)
  else
    match rfc1123Parse req.lastModified with
    | none => (⟨400, "", none⟩, st)
    | some version =>
      if req.contentLength ≤ 0 then (⟨400, "", none⟩, st)
      else if SizeLimit ≤ req.contentLength then (⟨413, "", none⟩, st)
      else
        let r :=
          if req.force = "" ∨ req.force = "false" then Store.SafePut version req.body st
          else Store.Overwrite nowNs req.body st
        match r.1 with
        | .ok _ => (⟨200, "", some (rfc1123Format version)⟩, r.2)
        | .error .versionConflict => (⟨409, "", none⟩, r.2)
        | .error _ => (⟨500, "", none⟩, r.2)

/-- server.go ServeHTTP (lines 57-91): GET /index.html is served before the
authentication check; every other request is authenticated against the Token
header (empty or mismatching token gives 401) and dispatched by method. -/
def ServeHTTP (authToken : String) (req : Request) (nowNs : Int)
    (st : Option S3Object) : HttpResp × Option S3Object :=
  if req.method = "GET" ∧ req.path = "/index.html" then (⟨200, htmlView, none⟩, st)
  else if req.token = "" ∨ req.token ≠ authToken then
    (⟨401, "Unauthorized request\n", none⟩, st)
  else
    match req.method with
    | "GET" => ((get req.path req.ifModifiedSince fun v => Store.Get v st).1, st)
    | "HEAD" => ((head req.path (Store.GetCurrentVersion st)).1, st)
    | "PUT" => put req nowNs st
    | _ => (⟨404, "", none⟩, st)

end Server

/-! Concrete inputs used by the claim theorems.  `refTime` is the one stored
metadata string under which the swapped parse in store.go still succeeds: the
RFC1123 layout constant itself, which parses (as a layout) against the
reference-time value and yields the reference time 2006-01-02 15:04:05.
`satTime` is an ordinary stored version, 2018-02-24 10:00:00 UTC (a
Saturday). -/

/-- Seconds since 0001-01-01 of Go's reference time 2006-01-02 15:04:05. -/
def refTime : Int := 63271811045

/-- Seconds since 0001-01-01 of 2018-02-24 10:00:00 UTC. -/
def satTime : Int := 63655063200

/-- C1: the claim's policy table fails on the code.  For a stored object whose
version metadata the store can parse (the layout constant itself is the one
such string, yielding the reference time), Get with the client version EQUAL
to the stored version returns success with the stored version and writes no
bytes, instead of failing NotModified; with the client version strictly AHEAD
it also returns success, instead of failing VersionConflict.  The store's own
test (store_test.go TestGet, cases "Same version" and "Newer version") expects
the errors the claim describes. -/
theorem c1_get_equal_version_returns_success :
    goTimeParse rfc1123Layout rfc1123Layout = some refTime ∧
    Store.Get refTime (some ⟨"hola", some rfc1123Layout⟩) = .ok (refTime, "") ∧
    Store.Get (refTime + 86400) (some ⟨"hola", some rfc1123Layout⟩) = .ok (refTime, "") :=
  ⟨rfl, rfl, rfl⟩

/-- C2: the claim fails on the code at equal versions.  With the stored
version equal to the supplied version, SafePut succeeds and overwrites the
content instead of failing VersionConflict, because store.go line 205 only
rejects a STRICTLY newer stored version.  The store's own test
(store_test.go TestSafePut, case "Same date") expects ErrVersionConflict. -/
theorem c2_safePut_equal_version_overwrites :
    Store.GetCurrentVersion (some ⟨"hola", some rfc1123Layout⟩) = .ok refTime ∧
    Store.SafePut refTime "adios" (some ⟨"hola", some rfc1123Layout⟩)
      = (.ok (), some ⟨"adios", some (rfc1123Format refTime)⟩) :=
  ⟨rfl, rfl⟩

/-- C3: the claim fails on the code.  For a stored object whose version
metadata is the RFC1123 serialization of 2018-02-24 10:00:00 UTC,
GetCurrentVersion fails with InvalidVersion instead of returning that time,
because store.go line 106 calls `time.Parse(*metadata, time.RFC1123)` with the
arguments swapped.  The store's own test (store_test.go TestGetCurrentVersion,
case "OK") expects success with the stored time. -/
theorem c3_rfc1123_metadata_rejected :
    rfc1123Format satTime = "Sat, 24 Feb 2018 10:00:00 UTC" ∧
    Store.GetCurrentVersion (some ⟨"x", some (rfc1123Format satTime)⟩)
      = .error .invalidVersion :=
  ⟨rfl, rfl⟩

/-- C4: whenever SafePut fails with VersionConflict, the S3 state after the
call is exactly the state before it — the conflict return happens before the
only write in the function. -/
theorem c4_version_conflict_mutates_nothing (v : Int) (c : String)
    (st : Option S3Object)
    (h : (Store.SafePut v c st).1 = .error .versionConflict) :
    (Store.SafePut v c st).2 = st := by
  unfold Store.SafePut at h ⊢
  cases hg : Store.GetCurrentVersion st with
  | ok cur =>
    simp only [hg] at h ⊢
    split at h <;> simp_all
  | error e =>
    by_cases he : e = StoreError.notFound
    · subst he
      simp [hg] at h ⊢
      split at h <;> simp_all
    · simp [hg, he]

/-- Witness for c4_version_conflict_mutates_nothing: a client version one
second behind the stored reference time conflicts and mutates nothing. -/
theorem c4_version_conflict_mutates_nothing_witness :
    (Store.SafePut (refTime - 1) "y" (some ⟨"hola", some rfc1123Layout⟩)).1
      = .error .versionConflict ∧
    (Store.SafePut (refTime - 1) "y" (some ⟨"hola", some rfc1123Layout⟩)).2
      = some ⟨"hola", some rfc1123Layout⟩ :=
  ⟨rfl, c4_version_conflict_mutates_nothing (refTime - 1) "y" _ rfl⟩

/-- C5: Overwrite succeeds for every prior state, unconditionally replaces
the content, and stamps the object with a version (the RFC1123-serialized
whole-second stamp) at least the call's wall-clock time truncated to whole
seconds — in fact exactly that truncation. -/
theorem c5_overwrite_unconditional (nowNs : Int) (content : String)
    (st : Option S3Object) :
    ∃ v : Int, Int.fdiv nowNs 1000000000 ≤ v ∧
      Store.Overwrite nowNs content st =
        (.ok (), some { content := content, version := some (rfc1123Format v) }) :=
  ⟨Int.fdiv nowNs 1000000000, le_refl _, rfl⟩

/-- C6: the round trip fails on the code.  SafePut on an absent object
succeeds and stores the content with the RFC1123 stamp of 2018-02-24
10:00:00 UTC, but a subsequent Get with a client version one day older fails
with InvalidVersion and delivers no bytes, because the swapped
`time.Parse(*metadata, time.RFC1123)` at store.go line 137 cannot read back
the metadata that store.go line 225 wrote.  The store's own test
(store_test.go TestGet, case "OK") expects the stored bytes back. -/
theorem c6_roundtrip_lost :
    Store.SafePut satTime "hola" none
      = (.ok (), some ⟨"hola", some (rfc1123Format satTime)⟩) ∧
    Store.Get (satTime - 86400) (Store.SafePut satTime "hola" none).2
      = .error .invalidVersion :=
  ⟨rfl, rfl⟩

/-- C7 counterexample: the claim as stated is false — when the store fails
with NotFound, the GET handler answers 500, not the resource-absent 404 the
claim requires (server.go lines 145-157 only distinguish NotModified and
VersionConflict; everything else falls to 500). -/
theorem c7_notFound_maps_to_500_counterexample :
    (Server.get "/" "" fun _ => .error .notFound) = (⟨500, "", none⟩, true) ∧
    (Server.get "/" "" fun _ => .error .notFound).1.status ≠ 404 :=
  ⟨rfl, by decide⟩

/-- C7 amended: on the object path, a non-empty client version string that
fails to parse gives 400 with the store never invoked; when a version is
obtained (the zero time for an absent header), the GET handler maps the store
outcome NotModified to 304 and VersionConflict to 409, and every other store
error — NotFound, InvalidVersion, and transport errors alike — to 500; the
HEAD handler maps every store error to 500. -/
theorem c7_status_mapping (date : String)
    (storeGet : Int → Except StoreError (Int × String))
    (storeHead : Except StoreError Int) :
    (date ≠ "" → rfc1123Parse date = none →
      Server.get "/" date storeGet = (⟨400, "", none⟩, false)) ∧
    (∀ v, (if date = "" then some 0 else rfc1123Parse date) = some v →
      (Server.get "/" date storeGet).2 = true ∧
      (Server.get "/" date storeGet).1.status =
        match storeGet v with
        | .error .notModified => 304
        | .error .versionConflict => 409
        | .error _ => 500
        | .ok _ => 200) ∧
    ((Server.head "/" storeHead).1.status =
      match storeHead with
      | .error _ => 500
      | .ok _ => 200) := by
  refine ⟨?_, ?_, ?_⟩
  · intro hne hp
    unfold Server.get
    simp [hne, hp]
  · intro v hv
    unfold Server.get
    simp only [hv]
    cases hr : storeGet v with
    | ok r => simp [hr]
    | error e => cases e <;> simp [hr]
  · unfold Server.head
    cases storeHead <;> simp

/-- Witness for c7_status_mapping: an unparseable version header gives 400
without invoking the store, NotModified gives 304, a transport error on HEAD
gives 500. -/
theorem c7_status_mapping_witness :
    Server.get "/" "foo" (fun _ => .error .notFound) = (⟨400, "", none⟩, false) ∧
    (Server.get "/" "" fun _ => .error .notModified).1.status = 304 ∧
    (Server.head "/" (.error .transportError)).1.status = 500 :=
  ⟨(c7_status_mapping "foo" (fun _ => .error .notFound) (.ok 0)).1 (by decide) rfl,
   ((c7_status_mapping "" (fun _ => .error .notModified) (.ok 0)).2.1 0 rfl).2,
   (c7_status_mapping "" (fun _ => .error .notFound) (.error .transportError)).2.2⟩

/-- C8 counterexample: the claim as stated is false — a PUT whose declared
content length (2 MiB) is above the 1 MiB ceiling but whose Last-Modified
header does not parse is rejected with 400, not the 413 the claim requires,
because server.go parses the version header (line 185) before the size checks
(lines 192-202). -/
theorem c8_oversize_unparsed_header_counterexample :
    (Server.put ⟨"PUT", "/", "t", "", "foo", "", 2097152, "adios"⟩ 0 none).1.status
      = 400 ∧
    (Server.put ⟨"PUT", "/", "t", "", "foo", "", 2097152, "adios"⟩ 0 none).1.status
      ≠ 413 :=
  ⟨rfl, by decide⟩

/-- C8 amended: for every PUT to the object path whose Last-Modified header
parses, a missing or non-positive declared content length is rejected with
400 and a declared content length at or above the 1 MiB ceiling (so in
particular any length above it) with 413, in both cases before SafePut or
Overwrite runs, leaving the stored object unchanged. -/
theorem c8_put_body_checks (req : Server.Request) (nowNs : Int)
    (st : Option S3Object)
    (hpath : req.path = "" ∨ req.path = "/")
    (hdate : ∃ v, rfc1123Parse req.lastModified = some v) :
    (req.contentLength ≤ 0 →
      Server.put req nowNs st = (⟨400, "", none⟩, st)) ∧
    (Server.SizeLimit ≤ req.contentLength →
      Server.put req nowNs st = (⟨413, "", none⟩, st)) := by
  obtain ⟨v, hv⟩ := hdate
  have hp : ¬(req.path ≠ "" ∧ req.path ≠ "/") := by
    rcases hpath with h | h <;> simp [h]
  constructor
  · intro hcl
    unfold Server.put
    simp [hp, hv, hcl]
  · intro hcl
    have hpos : ¬req.contentLength ≤ 0 := by
      have : (0 : Int) < Server.SizeLimit := by decide
      omega
    unfold Server.put
    simp [hp, hv, hpos, hcl]

/-- Witness for c8_put_body_checks: a zero content length gives 400 and a
2 MiB content length gives 413, both leaving the absent object absent. -/
theorem c8_put_body_checks_witness :
    Server.put ⟨"PUT", "/", "t", "", rfc1123Layout, "", 0, ""⟩ 0 none
      = (⟨400, "", none⟩, none) ∧
    Server.put ⟨"PUT", "/", "t", "", rfc1123Layout, "", 2097152, "adios"⟩ 0 none
      = (⟨413, "", none⟩, none) :=
  ⟨(c8_put_body_checks ⟨"PUT", "/", "t", "", rfc1123Layout, "", 0, ""⟩ 0 none
      (Or.inr rfl) ⟨refTime, rfl⟩).1 (by decide),
   (c8_put_body_checks ⟨"PUT", "/", "t", "", rfc1123Layout, "", 2097152, "adios"⟩ 0 none
      (Or.inr rfl) ⟨refTime, rfl⟩).2 (by decide)⟩

/-- C9: when the object exists but its version metadata is absent, or present
but rejected by the store's version parse, SafePut propagates InvalidVersion
and performs no write — only the NotFound outcome of the version check is
replaced by the zero version in store.go lines 197-203. -/
theorem c9_invalid_version_propagates (v : Int) (c : String) (obj : S3Object)
    (h : obj.version = none ∨
      ∃ m, obj.version = some m ∧ goTimeParse m rfc1123Layout = none) :
    Store.SafePut v c (some obj) = (.error .invalidVersion, some obj) := by
  have hg : Store.GetCurrentVersion (some obj) = .error .invalidVersion := by
    unfold Store.GetCurrentVersion
    rcases h with h | ⟨m, hm, hp⟩
    · simp [h]
    · simp [hm, hp]
  unfold Store.SafePut
  simp [hg]

/-- Witness for c9_invalid_version_propagates: an object with content but no
version metadata makes SafePut fail InvalidVersion and leaves it untouched. -/
theorem c9_invalid_version_propagates_witness :
    Store.SafePut 5 "y" (some ⟨"x", none⟩) = (.error .invalidVersion, some ⟨"x", none⟩) :=
  c9_invalid_version_propagates 5 "y" ⟨"x", none⟩ (Or.inl rfl)

/-- C10: a GET for /index.html is served before the authentication check with
the static HTML view and an unchanged store, and the response is the same for
any two Token header values (including the empty one). -/
theorem c10_index_view_ignores_token (authToken t1 t2 ifms lm fo : String)
    (cl : Int) (b : String) (nowNs : Int) (st : Option S3Object) :
    Server.ServeHTTP authToken ⟨"GET", "/index.html", t1, ifms, lm, fo, cl, b⟩ nowNs st
      = (⟨200, Server.htmlView, none⟩, st) ∧
    Server.ServeHTTP authToken ⟨"GET", "/index.html", t1, ifms, lm, fo, cl, b⟩ nowNs st
      = Server.ServeHTTP authToken ⟨"GET", "/index.html", t2, ifms, lm, fo, cl, b⟩ nowNs st :=
  ⟨rfl, rfl⟩

end Todo
